import Mathlib

/-!
Verification of the SecretSwap pair contract's pricing core
(`contracts/secretswap_pair/src/contract.rs`): constant-product swap math,
reverse quoting, liquidity withdrawal math, the max-spread guard, and the
reserve-obfuscation multiplier used by read-only queries.

Conventions of the embedding:
* `Uint128` and `U256` values are `Nat`s; overflow boundaries (`2 ^ 128`,
  `2 ^ 256`) are checked explicitly where the source checks (or fails to
  check) them.  `low_u128` narrowing is `% 2 ^ 128`.
* Fallible computations return `CwResult`: `ok` for a returned value,
  `err` for a returned `StdError`, and `panic` for abnormal termination
  that returns nothing (a Rust panic, e.g. division by zero inside
  `multiply_ratio`; unchecked native-integer overflow is likewise modelled
  as `panic`, the contracts being compiled with overflow checks — with
  wraparound semantics instead, the outcome is still not a returned error).
* The wide-integer module (`u256_math`) and the decimal-ratio module
  (`math`) are part of the repository but not among the given source
  files; they are modelled from the spec (sections 4.1 and 4.2), as noted
  on each such definition.
-/

/-- Outcome of a contract computation: a returned value, a returned
`StdError` with its message, or abnormal termination (panic). -/
inductive CwResult (α : Type) where
  | ok : α → CwResult α
  | err : String → CwResult α
  | panic : CwResult α
deriving DecidableEq

/-- Sequencing of fallible computations (Rust's `?` and method chaining). -/
def CwResult.bind {α β : Type} : CwResult α → (α → CwResult β) → CwResult β
  | CwResult.ok a, f => f a
  | CwResult.err e, _ => CwResult.err e
  | CwResult.panic, _ => CwResult.panic

/-- Whether the computation returned an error (as opposed to succeeding or
panicking). -/
def CwResult.isErr {α : Type} : CwResult α → Bool
  | CwResult.err _ => true
  | _ => false

/-- First component of a returned triple, if the computation succeeded. -/
def CwResult.first3 : CwResult (Nat × Nat × Nat) → Option Nat
  | CwResult.ok t => some t.1
  | _ => none

namespace u256_math

/-- Modelled from the spec: checked multiplication over 256-bit unsigned
integers, lifted over `Option` (an absent operand or an overflowing product
gives an absent result, never a wraparound). -/
def mul (a b : Option Nat) : Option Nat :=
  match a, b with
  | some x, some y => if x * y < 2 ^ 256 then some (x * y) else none
  | _, _ => none

/-- Modelled from the spec: checked addition over 256-bit unsigned
integers, lifted over `Option`. -/
def add (a b : Option Nat) : Option Nat :=
  match a, b with
  | some x, some y => if x + y < 2 ^ 256 then some (x + y) else none
  | _, _ => none

/-- Modelled from the spec: checked subtraction over 256-bit unsigned
integers, lifted over `Option`; absent on underflow. -/
def sub (a b : Option Nat) : Option Nat :=
  match a, b with
  | some x, some y => if y ≤ x then some (x - y) else none
  | _, _ => none

/-- Modelled from the spec: checked division over 256-bit unsigned
integers, lifted over `Option`; absent on division by zero. The quotient is
the floor. -/
def div (a b : Option Nat) : Option Nat :=
  match a, b with
  | some x, some y => if y = 0 then none else some (x / y)
  | _, _ => none

end u256_math

/-- The obfuscation multiplier (contract.rs `get_random_nom_denom`): one
64-bit draw `random_number` yields `(nom, denom)` with `denom = 10000`,
`nom_noise = random_number % 100`, and `nom = denom + nom_noise` for an
even draw, `denom - nom_noise` for an odd one. -/
def get_random_nom_denom (random_number : Nat) : Nat × Nat :=
  let nom_noise := random_number % 100
  if random_number % 2 = 0 then (10000 + nom_noise, 10000)
  else (10000 - nom_noise, 10000)

/-- Swap pricing (contract.rs `compute_swap`): the constant-product output,
spread and commission for an offered amount against the given reserves.
Every wide operation is the checked `u256_math` one; the three results are
narrowed to 128 bits with `low_u128` (`% 2 ^ 128`) at the end, exactly as
in the source. The spread uses `saturating_sub`, which on `Nat` is plain
subtraction. -/
def compute_swap (offer_pool ask_pool offer_amount
    commission_rate_nom commission_rate_denom : Nat) :
    CwResult (Nat × Nat × Nat) :=
  let op : Option Nat := some offer_pool
  let ap : Option Nat := some ask_pool
  let oa : Option Nat := some offer_amount
  let cp := u256_math.mul op ap
  match cp with
  | none => CwResult.err "Cannot calculate cp = offer_pool * ask_pool"
  | some _ =>
    match u256_math.sub ap (u256_math.div cp (u256_math.add op oa)) with
    | none => CwResult.err "Cannot calculate return_amount"
    | some gross =>
      match u256_math.div (u256_math.mul oa ap) op with
      | none => CwResult.err "Cannot calculate offer_amount * ask_pool / offer_pool"
      | some marginal =>
        let spread_amount := marginal - gross
        match u256_math.div (u256_math.mul (some gross) (some commission_rate_nom))
            (some commission_rate_denom) with
        | none =>
          CwResult.err "Cannot calculate return_amount * commission_rate_nom / commission_rate_denom"
        | some commission_amount =>
          match u256_math.sub (some gross) (some commission_amount) with
          | none => CwResult.err "Cannot calculate return_amount - commission_amount"
          | some net =>
            CwResult.ok (net % 2 ^ 128, spread_amount % 2 ^ 128, commission_amount % 2 ^ 128)

/-- Modelled from the spec: the Fixed-Point Decimal component is a ratio
type with numerator/denominator semantics (`from_ratio a b` builds `a/b`,
`one` is the unit). -/
structure SDecimal where
  num : Nat
  den : Nat
deriving DecidableEq

/-- Modelled from the spec: the unit decimal. -/
def SDecimal.one : SDecimal := ⟨1, 1⟩

/-- Modelled from the spec: ratio construction `from_ratio a b = a / b`. -/
def SDecimal.from_ratio (a b : Nat) : SDecimal := ⟨a, b⟩

/-- Modelled from the spec: decimal comparison, by cross-multiplication of
the ratios. -/
def SDecimal.decGt (a b : SDecimal) : Bool := b.num * a.den < a.num * b.den

/-- Modelled from the spec: `decimal_subtraction` (repo module `math`, not
among the given sources) fails if the result would be negative. -/
def decimal_subtraction (a b : SDecimal) : CwResult SDecimal :=
  if b.num * a.den ≤ a.num * b.den then
    CwResult.ok ⟨a.num * b.den - b.num * a.den, a.den * b.den⟩
  else CwResult.err "Cannot subtract"

/-- Modelled from the spec: `reverse_decimal` (repo module `math`) is `1/x`;
a zero input gives a zero-denominator ratio, whose use divides by zero. -/
def reverse_decimal (d : SDecimal) : SDecimal := ⟨d.den, d.num⟩

/-- Modelled from the spec: an integer amount times a decimal ratio,
truncated (floor); a zero ratio denominator is a division by zero and
terminates abnormally. -/
def uint_mul_dec (u : Nat) (d : SDecimal) : CwResult Nat :=
  if d.den = 0 then CwResult.panic else CwResult.ok (u * d.num / d.den)

/-- `Uint128::multiply_ratio x nom denom` panics on a zero denominator, and
its 128-bit product `x * nom` is an unchecked native multiplication (no
returned error on overflow). -/
def multiply_ratio (x nom denom : Nat) : CwResult Nat :=
  if denom = 0 then CwResult.panic
  else if 2 ^ 128 ≤ x * nom then CwResult.panic
  else CwResult.ok (x * nom / denom)

/-- `Uint128` subtraction returns a `StdResult`, failing on underflow. -/
def uint_sub (a b : Nat) : CwResult Nat :=
  if b ≤ a then CwResult.ok (a - b) else CwResult.err "Cannot subtract Uint128"

/-- Reverse quoting (contract.rs `compute_offer_amount`): derive the
required input for a desired output. Mirrors the source line by line:
`cp` is an unchecked native 128-bit product; the fee adjustment runs
through the decimal-ratio module; `(ask_pool - ask_amount * 1/(1-fee))?`
is a failing `Uint128` subtraction; `cp.multiply_ratio(1, ·)` panics when
its denominator is zero; the spread's failing subtraction is defaulted to
zero (`unwrap_or_else`), i.e. saturates. The `before_commission_deduction`
recomputation at line 867 is the identical expression, reused here. -/
def compute_offer_amount (offer_pool ask_pool ask_amount
    commission_rate_nom commission_rate_denom : Nat) :
    CwResult (Nat × Nat × Nat) :=
  if 2 ^ 128 ≤ offer_pool * ask_pool then CwResult.panic
  else if commission_rate_denom = 0 then CwResult.panic
  else
    let cp := offer_pool * ask_pool
    CwResult.bind
      (decimal_subtraction SDecimal.one
        (SDecimal.from_ratio commission_rate_nom commission_rate_denom))
      (fun one_minus_commission =>
        CwResult.bind (uint_mul_dec ask_amount (reverse_decimal one_minus_commission))
          (fun before_commission_deduction =>
            CwResult.bind (uint_sub ask_pool before_commission_deduction)
              (fun depth =>
                CwResult.bind (multiply_ratio cp 1 depth)
                  (fun quot =>
                    CwResult.bind (uint_sub quot offer_pool)
                      (fun offer_amount =>
                        CwResult.bind
                          (uint_mul_dec offer_amount
                            (SDecimal.from_ratio ask_pool offer_pool))
                          (fun marginal =>
                            let spread_amount := marginal - before_commission_deduction
                            CwResult.bind
                              (uint_mul_dec before_commission_deduction
                                (SDecimal.from_ratio commission_rate_nom
                                  commission_rate_denom))
                              (fun commission_amount =>
                                CwResult.ok
                                  (offer_amount, spread_amount, commission_amount))))))))

/-- Guard rail (contract.rs `assert_max_spread`): three mutually exclusive
modes in priority order. (1) `expected_return` given: fail iff the realized
return falls short. (2) else both `max_spread` and `belief_price`:
recompute an expected return from the belief price. (3) else `max_spread`
alone: bound the realized spread ratio. `Uint128` additions are native
(unchecked); a zero-denominator `Decimal::from_ratio` in mode 3 panics. -/
def assert_max_spread (belief_price max_spread : Option SDecimal)
    (expected_return : Option Nat)
    (offer_amount return_amount commission_amount spread_amount : Nat) :
    CwResult Unit :=
  match expected_return with
  | some er =>
    if return_amount < er then CwResult.err "Operation fell short of expected_return"
    else CwResult.ok ()
  | none =>
    match max_spread, belief_price with
    | some ms, some bp =>
      if 2 ^ 128 ≤ return_amount + commission_amount then CwResult.panic
      else
        CwResult.bind (uint_mul_dec offer_amount (reverse_decimal bp))
          (fun er =>
            let ra := return_amount + commission_amount
            let sa := er - ra
            if ra < er then
              if SDecimal.decGt (SDecimal.from_ratio sa er) ms then
                CwResult.err "Operation exceeds max spread limit with belief_price"
              else CwResult.ok ()
            else CwResult.ok ())
    | some ms, none =>
      if 2 ^ 128 ≤ return_amount + commission_amount then CwResult.panic
      else if 2 ^ 128 ≤ return_amount + commission_amount + spread_amount then CwResult.panic
      else if return_amount + commission_amount + spread_amount = 0 then CwResult.panic
      else if SDecimal.decGt
          (SDecimal.from_ratio spread_amount
            (return_amount + commission_amount + spread_amount)) ms then
        CwResult.err "Operation exceeds max spread limit"
      else CwResult.ok ()
    | none, _ => CwResult.ok ()

/-- Per-asset withdrawal math (the closure in contract.rs
`try_withdraw_liquidity`): `pool_amount * burn_amount / total_share`
through the checked wide operations, narrowed with `low_u128`. -/
def compute_withdrawal (pool_amount burn_amount total_share : Nat) : CwResult Nat :=
  match u256_math.div (u256_math.mul (some pool_amount) (some burn_amount))
      (some total_share) with
  | none =>
    CwResult.err "Cannot calculate current_pool_amount * withdrawn_share_amount / total_share"
  | some w => CwResult.ok (w % 2 ^ 128)

/-- The committed amounts of a state-changing swap (contract.rs `try_swap`,
lines 498-619): the offered amount is subtracted from its pool side with a
checked subtraction (the balance was already increased by the deposit),
`compute_swap` runs on the true reserves, and the guard rail is applied.
The entropy draw `_draw` is threaded through to model that the handle
dispatcher holds entropy state, but `try_swap` never reads it: no
obfuscation touches the committed amounts. (Volume bookkeeping, which does
not affect the returned amounts, is omitted.) -/
def try_swap_amounts (_draw : Nat) (pool0 pool1 : Nat) (offer_is_0 : Bool)
    (offer_amount commission_rate_nom commission_rate_denom : Nat)
    (expected_return : Option Nat) (belief_price max_spread : Option SDecimal) :
    CwResult (Nat × Nat × Nat) :=
  let pool_amount := if offer_is_0 then pool0 else pool1
  let ask_amount := if offer_is_0 then pool1 else pool0
  match u256_math.sub (some pool_amount) (some offer_amount) with
  | none => CwResult.err "offer_amount larger than pool_amount + offer_amount"
  | some offer_pool =>
    CwResult.bind
      (compute_swap (offer_pool % 2 ^ 128) ask_amount offer_amount
        commission_rate_nom commission_rate_denom)
      (fun rsc =>
        CwResult.bind
          (assert_max_spread belief_price max_spread expected_return
            offer_amount rsc.1 rsc.2.2 rsc.2.1)
          (fun _ => CwResult.ok rsc))

/-- Read-only swap simulation (contract.rs `query_simulation`): one
`(nom, denom)` pair is drawn, both pools are scaled by `nom / denom` with
native multiply-then-divide, and `compute_swap` runs on the obfuscated
reserves. -/
def query_simulation (draw : Nat) (pool0 pool1 : Nat) (offer_is_0 : Bool)
    (offer_amount commission_rate_nom commission_rate_denom : Nat) :
    CwResult (Nat × Nat × Nat) :=
  let rn := get_random_nom_denom draw
  if 2 ^ 128 ≤ pool0 * rn.1 then CwResult.panic
  else if 2 ^ 128 ≤ pool1 * rn.1 then CwResult.panic
  else
    let p0 := pool0 * rn.1 / rn.2
    let p1 := pool1 * rn.1 / rn.2
    compute_swap (if offer_is_0 then p0 else p1) (if offer_is_0 then p1 else p0)
      offer_amount commission_rate_nom commission_rate_denom

/-- Read-only pool query (contract.rs `query_pool`): one `(nom, denom)`
pair is drawn and applied to both reserves and the total share, each with
native multiply-then-divide (truncating). -/
def query_pool (draw : Nat) (amount0 amount1 total_share : Nat) :
    CwResult (Nat × Nat × Nat) :=
  let rn := get_random_nom_denom draw
  if 2 ^ 128 ≤ amount0 * rn.1 then CwResult.panic
  else if 2 ^ 128 ≤ amount1 * rn.1 then CwResult.panic
  else if 2 ^ 128 ≤ total_share * rn.1 then CwResult.panic
  else CwResult.ok (amount0 * rn.1 / rn.2, amount1 * rn.1 / rn.2, total_share * rn.1 / rn.2)

/-! ### Helper lemmas about the checked wide operations -/

theorem u256_mul_some {x y : Nat} (h : x * y < 2 ^ 256) :
    u256_math.mul (some x) (some y) = some (x * y) := by
  simp only [u256_math.mul]
  rw [if_pos h]

theorem u256_add_some {x y : Nat} (h : x + y < 2 ^ 256) :
    u256_math.add (some x) (some y) = some (x + y) := by
  simp only [u256_math.add]
  rw [if_pos h]

theorem u256_sub_some {x y : Nat} (h : y ≤ x) :
    u256_math.sub (some x) (some y) = some (x - y) := by
  simp [u256_math.sub, h]

theorem u256_sub_none {x y : Nat} (h : x < y) :
    u256_math.sub (some x) (some y) = none := by
  simp [u256_math.sub]
  omega

theorem u256_div_some {x y : Nat} (h : y ≠ 0) :
    u256_math.div (some x) (some y) = some (x / y) := by
  simp [u256_math.div, h]

theorem u256_div_zero (x : Option Nat) : u256_math.div x (some 0) = none := by
  cases x <;> simp [u256_math.div]

theorem mul_lt_limit {x y : Nat} (hx : x < 2 ^ 128) (hy : y < 2 ^ 128) :
    x * y < 2 ^ 256 := by
  calc x * y < 2 ^ 128 * 2 ^ 128 := Nat.mul_lt_mul'' hx hy
    _ = 2 ^ 256 := by rw [← pow_add]

theorem add_lt_limit {x y : Nat} (hx : x < 2 ^ 128) (hy : y < 2 ^ 128) :
    x + y < 2 ^ 256 := by
  have h : x + y < 2 ^ 128 + 2 ^ 128 := Nat.add_lt_add hx hy
  calc x + y < 2 ^ 128 + 2 ^ 128 := h
    _ ≤ 2 ^ 256 := by norm_num

theorem quot_le_ask {op ap oa : Nat} (hop : 0 < op) : op * ap / (op + oa) ≤ ap := by
  have h1 : op * ap / (op + oa) ≤ op * ap / op :=
    Nat.div_le_div_left (Nat.le_add_right op oa) hop
  simpa [Nat.mul_div_cancel_left ap hop] using h1

/-! ### Characterization of `compute_swap` -/

theorem compute_swap_eq_ok (op ap oa nom denom : Nat)
    (hop128 : op < 2 ^ 128) (hap128 : ap < 2 ^ 128) (hoa128 : oa < 2 ^ 128)
    (hnom128 : nom < 2 ^ 128) (hop : 0 < op) (hden : 0 < denom)
    (hcom : (ap - op * ap / (op + oa)) * nom / denom ≤ ap - op * ap / (op + oa)) :
    compute_swap op ap oa nom denom =
      CwResult.ok
        ((ap - op * ap / (op + oa)) - (ap - op * ap / (op + oa)) * nom / denom,
         (oa * ap / op - (ap - op * ap / (op + oa))) % 2 ^ 128,
         (ap - op * ap / (op + oa)) * nom / denom) := by
  have hg128 : ap - op * ap / (op + oa) < 2 ^ 128 :=
    lt_of_le_of_lt (Nat.sub_le _ _) hap128
  have h1 : u256_math.mul (some op) (some ap) = some (op * ap) :=
    u256_mul_some (mul_lt_limit hop128 hap128)
  have h2 : u256_math.add (some op) (some oa) = some (op + oa) :=
    u256_add_some (add_lt_limit hop128 hoa128)
  have h3 : u256_math.div (some (op * ap)) (some (op + oa)) =
      some (op * ap / (op + oa)) := u256_div_some (by omega)
  have h4 : u256_math.sub (some ap) (some (op * ap / (op + oa))) =
      some (ap - op * ap / (op + oa)) := u256_sub_some (quot_le_ask hop)
  have h5 : u256_math.mul (some oa) (some ap) = some (oa * ap) :=
    u256_mul_some (mul_lt_limit hoa128 hap128)
  have h6 : u256_math.div (some (oa * ap)) (some op) = some (oa * ap / op) :=
    u256_div_some (by omega)
  have h7 : u256_math.mul (some (ap - op * ap / (op + oa))) (some nom) =
      some ((ap - op * ap / (op + oa)) * nom) :=
    u256_mul_some (mul_lt_limit hg128 hnom128)
  have h8 : u256_math.div (some ((ap - op * ap / (op + oa)) * nom)) (some denom) =
      some ((ap - op * ap / (op + oa)) * nom / denom) := u256_div_some (by omega)
  have h9 : u256_math.sub (some (ap - op * ap / (op + oa)))
      (some ((ap - op * ap / (op + oa)) * nom / denom)) =
      some ((ap - op * ap / (op + oa)) - (ap - op * ap / (op + oa)) * nom / denom) :=
    u256_sub_some hcom
  have hnet : ((ap - op * ap / (op + oa)) - (ap - op * ap / (op + oa)) * nom / denom)
      % 2 ^ 128 =
      (ap - op * ap / (op + oa)) - (ap - op * ap / (op + oa)) * nom / denom :=
    Nat.mod_eq_of_lt (lt_of_le_of_lt (Nat.sub_le _ _) hg128)
  have hcomm : ((ap - op * ap / (op + oa)) * nom / denom) % 2 ^ 128 =
      (ap - op * ap / (op + oa)) * nom / denom :=
    Nat.mod_eq_of_lt (lt_of_le_of_lt hcom hg128)
  simp only [compute_swap, h1, h2, h3, h4, h5, h6, h7, h8, h9, hnet, hcomm]

theorem compute_swap_err_denom_zero (op ap oa nom : Nat)
    (hop128 : op < 2 ^ 128) (hap128 : ap < 2 ^ 128) (hoa128 : oa < 2 ^ 128)
    (hnom128 : nom < 2 ^ 128) (hop : 0 < op) :
    compute_swap op ap oa nom 0 =
      CwResult.err
        "Cannot calculate return_amount * commission_rate_nom / commission_rate_denom" := by
  have hg128 : ap - op * ap / (op + oa) < 2 ^ 128 :=
    lt_of_le_of_lt (Nat.sub_le _ _) hap128
  have h1 : u256_math.mul (some op) (some ap) = some (op * ap) :=
    u256_mul_some (mul_lt_limit hop128 hap128)
  have h2 : u256_math.add (some op) (some oa) = some (op + oa) :=
    u256_add_some (add_lt_limit hop128 hoa128)
  have h3 : u256_math.div (some (op * ap)) (some (op + oa)) =
      some (op * ap / (op + oa)) := u256_div_some (by omega)
  have h4 : u256_math.sub (some ap) (some (op * ap / (op + oa))) =
      some (ap - op * ap / (op + oa)) := u256_sub_some (quot_le_ask hop)
  have h5 : u256_math.mul (some oa) (some ap) = some (oa * ap) :=
    u256_mul_some (mul_lt_limit hoa128 hap128)
  have h6 : u256_math.div (some (oa * ap)) (some op) = some (oa * ap / op) :=
    u256_div_some (by omega)
  have h7 : u256_math.mul (some (ap - op * ap / (op + oa))) (some nom) =
      some ((ap - op * ap / (op + oa)) * nom) :=
    u256_mul_some (mul_lt_limit hg128 hnom128)
  have h8 : u256_math.div (some ((ap - op * ap / (op + oa)) * nom)) (some 0) = none :=
    u256_div_zero _
  simp only [compute_swap, h1, h2, h3, h4, h5, h6, h7, h8]

theorem compute_swap_err_com_gt (op ap oa nom denom : Nat)
    (hop128 : op < 2 ^ 128) (hap128 : ap < 2 ^ 128) (hoa128 : oa < 2 ^ 128)
    (hnom128 : nom < 2 ^ 128) (hop : 0 < op) (hden : 0 < denom)
    (hgt : ap - op * ap / (op + oa) < (ap - op * ap / (op + oa)) * nom / denom) :
    compute_swap op ap oa nom denom =
      CwResult.err "Cannot calculate return_amount - commission_amount" := by
  have hg128 : ap - op * ap / (op + oa) < 2 ^ 128 :=
    lt_of_le_of_lt (Nat.sub_le _ _) hap128
  have h1 : u256_math.mul (some op) (some ap) = some (op * ap) :=
    u256_mul_some (mul_lt_limit hop128 hap128)
  have h2 : u256_math.add (some op) (some oa) = some (op + oa) :=
    u256_add_some (add_lt_limit hop128 hoa128)
  have h3 : u256_math.div (some (op * ap)) (some (op + oa)) =
      some (op * ap / (op + oa)) := u256_div_some (by omega)
  have h4 : u256_math.sub (some ap) (some (op * ap / (op + oa))) =
      some (ap - op * ap / (op + oa)) := u256_sub_some (quot_le_ask hop)
  have h5 : u256_math.mul (some oa) (some ap) = some (oa * ap) :=
    u256_mul_some (mul_lt_limit hoa128 hap128)
  have h6 : u256_math.div (some (oa * ap)) (some op) = some (oa * ap / op) :=
    u256_div_some (by omega)
  have h7 : u256_math.mul (some (ap - op * ap / (op + oa))) (some nom) =
      some ((ap - op * ap / (op + oa)) * nom) :=
    u256_mul_some (mul_lt_limit hg128 hnom128)
  have h8 : u256_math.div (some ((ap - op * ap / (op + oa)) * nom)) (some denom) =
      some ((ap - op * ap / (op + oa)) * nom / denom) := u256_div_some (by omega)
  have h9 : u256_math.sub (some (ap - op * ap / (op + oa)))
      (some ((ap - op * ap / (op + oa)) * nom / denom)) = none := u256_sub_none hgt
  simp only [compute_swap, h1, h2, h3, h4, h5, h6, h7, h8, h9]

theorem compute_swap_ok_char (op ap oa nom denom r s c : Nat)
    (hop128 : op < 2 ^ 128) (hap128 : ap < 2 ^ 128) (hoa128 : oa < 2 ^ 128)
    (hnom128 : nom < 2 ^ 128) (hop : 0 < op)
    (hok : compute_swap op ap oa nom denom = CwResult.ok (r, s, c)) :
    0 < denom ∧
    (ap - op * ap / (op + oa)) * nom / denom ≤ ap - op * ap / (op + oa) ∧
    r = (ap - op * ap / (op + oa)) - (ap - op * ap / (op + oa)) * nom / denom ∧
    s = (oa * ap / op - (ap - op * ap / (op + oa))) % 2 ^ 128 ∧
    c = (ap - op * ap / (op + oa)) * nom / denom := by
  by_cases hden : denom = 0
  · subst hden
    rw [compute_swap_err_denom_zero op ap oa nom hop128 hap128 hoa128 hnom128 hop] at hok
    exact (CwResult.noConfusion hok)
  · have hdpos : 0 < denom := Nat.pos_of_ne_zero hden
    by_cases hcom : (ap - op * ap / (op + oa)) * nom / denom ≤ ap - op * ap / (op + oa)
    · rw [compute_swap_eq_ok op ap oa nom denom hop128 hap128 hoa128 hnom128 hop hdpos
        hcom] at hok
      have h := hok
      injection h with h'
      injection h' with e1 h''
      injection h'' with e2 e3
      exact ⟨hdpos, hcom, e1.symm, e2.symm, e3.symm⟩
    · rw [compute_swap_err_com_gt op ap oa nom denom hop128 hap128 hoa128 hnom128 hop
        hdpos (by omega)] at hok
      exact (CwResult.noConfusion hok)

/-! ### Claims C1, C2, C3 -/

/-- C1 (amended): for every call `compute_swap(offer_pool, ask_pool,
offer_amount, fee_nom, fee_denom)` on 128-bit inputs with positive pools
that succeeds, the returned triple equals `gross - commission` for the
return amount and `floor(gross * fee_nom / fee_denom)` for the commission,
with `gross = ask_pool - floor(offer_pool * ask_pool / (offer_pool +
offer_amount))`; the spread equals the saturating difference
`floor(offer_amount * ask_pool / offer_pool) - gross` reduced to its low
128 bits (the source narrows it with `low_u128`, so an out-of-range spread
is truncated, not returned verbatim). -/
theorem compute_swap_formula (op ap oa nom denom r s c : Nat)
    (hop128 : op < 2 ^ 128) (hap128 : ap < 2 ^ 128) (hoa128 : oa < 2 ^ 128)
    (hnom128 : nom < 2 ^ 128) (hop : 0 < op) (_hap : 0 < ap)
    (hok : compute_swap op ap oa nom denom = CwResult.ok (r, s, c)) :
    r = (ap - op * ap / (op + oa)) - (ap - op * ap / (op + oa)) * nom / denom
    ∧ s = (oa * ap / op - (ap - op * ap / (op + oa))) % 2 ^ 128
    ∧ c = (ap - op * ap / (op + oa)) * nom / denom := by
  obtain ⟨-, -, hr, hs, hc⟩ :=
    compute_swap_ok_char op ap oa nom denom r s c hop128 hap128 hoa128 hnom128 hop hok
  exact ⟨hr, hs, hc⟩

/-- Witness for C1 at `compute_swap 10 10 3 3 1000 = ok (3, 0, 0)`. -/
theorem compute_swap_formula_witness :
    (3 : Nat) = (10 - 10 * 10 / (10 + 3)) - (10 - 10 * 10 / (10 + 3)) * 3 / 1000
    ∧ (0 : Nat) = (3 * 10 / 10 - (10 - 10 * 10 / (10 + 3))) % 2 ^ 128
    ∧ (0 : Nat) = (10 - 10 * 10 / (10 + 3)) * 3 / 1000 :=
  compute_swap_formula 10 10 3 3 1000 3 0 0 (by norm_num) (by norm_num) (by norm_num)
    (by norm_num) (by norm_num) (by norm_num) (by decide)

/-- Counterexample to C1 as stated: at `offer_pool = 1`,
`ask_pool = offer_amount = 2^128 - 1`, fee `3/1000`, the call succeeds but
the returned spread is `2`, the low 128 bits of the saturating value
`(2^128-1)^2 - (2^128-1)`, which it does not equal. -/
theorem compute_swap_spread_truncation_cex :
    compute_swap 1 (2 ^ 128 - 1) (2 ^ 128 - 1) 3 1000 =
      CwResult.ok
        ((2 ^ 128 - 1) - (2 ^ 128 - 1) * 3 / 1000, 2, (2 ^ 128 - 1) * 3 / 1000)
    ∧ (2 ^ 128 - 1) * (2 ^ 128 - 1) / 1 -
        ((2 ^ 128 - 1) - 1 * (2 ^ 128 - 1) / (1 + (2 ^ 128 - 1))) ≠ 2 := by
  constructor
  · decide
  · decide

theorem invariant_bound_arith (S P ap q com r m : Nat)
    (e1 : S * q + m = P) (e2 : m < S) (hqle : q ≤ ap)
    (hcom : com ≤ ap - q) (hr : r = (ap - q) - com) :
    P < S * (ap - r) + S := by
  have e3 : ap - r = q + com := by omega
  rw [e3, Nat.mul_add, ← e1]
  have h10 : S * q + m < S * q + S := Nat.add_lt_add_left e2 _
  have h11 : S * q + S ≤ S * q + S * com + S :=
    Nat.add_le_add_right (Nat.le_add_right _ _) _
  exact lt_of_lt_of_le h10 h11

/-- C2 (amended): a successful swap on positive 128-bit reserves may
decrease the pricing invariant, but by less than `offer_pool +
offer_amount`: always `(offer_pool + offer_amount) * (ask_pool -
return_amount) + (offer_pool + offer_amount) > offer_pool * ask_pool`,
where `return_amount` is the committed net output. -/
theorem compute_swap_invariant_lower_bound (op ap oa nom denom r s c : Nat)
    (hop128 : op < 2 ^ 128) (hap128 : ap < 2 ^ 128) (hoa128 : oa < 2 ^ 128)
    (hnom128 : nom < 2 ^ 128) (hop : 0 < op) (_hap : 0 < ap)
    (hok : compute_swap op ap oa nom denom = CwResult.ok (r, s, c)) :
    op * ap < (op + oa) * (ap - r) + (op + oa) := by
  obtain ⟨hd, hcom, hr, hs, hc⟩ :=
    compute_swap_ok_char op ap oa nom denom r s c hop128 hap128 hoa128 hnom128 hop hok
  exact invariant_bound_arith (op + oa) (op * ap) ap (op * ap / (op + oa))
    ((ap - op * ap / (op + oa)) * nom / denom) r (op * ap % (op + oa))
    (Nat.div_add_mod _ _) (Nat.mod_lt _ (by omega)) (quot_le_ask hop) hcom hr

/-- Witness for C2 at `compute_swap 10 10 3 3 1000 = ok (3, 0, 0)`:
`10 * 10 < 13 * 7 + 13`. -/
theorem compute_swap_invariant_lower_bound_witness :
    10 * 10 < (10 + 3) * (10 - 3) + (10 + 3) :=
  compute_swap_invariant_lower_bound 10 10 3 3 1000 3 0 0 (by norm_num) (by norm_num)
    (by norm_num) (by norm_num) (by norm_num) (by norm_num) (by decide)

/-- Counterexample to C2 as stated: at reserves `(10, 10)`, offer `3`, fee
`3/1000`, the swap succeeds with net output `3`, and the post-trade
invariant `13 * 7 = 91` is strictly below the pre-trade invariant `100`:
the constant product decreases. -/
theorem compute_swap_invariant_decrease_cex :
    compute_swap 10 10 3 3 1000 = CwResult.ok (3, 0, 0)
    ∧ (10 + 3) * (10 - 3) < 10 * 10 := by
  constructor
  · decide
  · decide

/-- C3 (amended): on 128-bit inputs, a successful `compute_swap` returns
its net output and commission exactly (both provably fit 128 bits), but
the spread is narrowed by taking its low 128 bits — an out-of-range spread
is silently truncated, not rejected; and `compute_offer_amount`'s product
`offer_pool * ask_pool` is an unchecked native 128-bit multiplication,
which on overflow terminates abnormally instead of returning a
descriptive error. -/
theorem compute_swap_narrowing_behavior
    (op ap oa nom denom r s c op2 ap2 ask2 nom2 denom2 : Nat) :
    (op < 2 ^ 128 → ap < 2 ^ 128 → oa < 2 ^ 128 → nom < 2 ^ 128 → 0 < op →
      compute_swap op ap oa nom denom = CwResult.ok (r, s, c) →
      r < 2 ^ 128 ∧ c < 2 ^ 128 ∧
      r = (ap - op * ap / (op + oa)) - (ap - op * ap / (op + oa)) * nom / denom ∧
      c = (ap - op * ap / (op + oa)) * nom / denom ∧
      s = (oa * ap / op - (ap - op * ap / (op + oa))) % 2 ^ 128)
    ∧ (2 ^ 128 ≤ op2 * ap2 →
        compute_offer_amount op2 ap2 ask2 nom2 denom2 = CwResult.panic) := by
  constructor
  · intro hop128 hap128 hoa128 hnom128 hop hok
    obtain ⟨hd, hcom, hr, hs, hc⟩ :=
      compute_swap_ok_char op ap oa nom denom r s c hop128 hap128 hoa128 hnom128 hop hok
    have hg128 : ap - op * ap / (op + oa) < 2 ^ 128 :=
      lt_of_le_of_lt (Nat.sub_le _ _) hap128
    refine ⟨?_, ?_, hr, hc, hs⟩
    · rw [hr]
      exact lt_of_le_of_lt (Nat.sub_le _ _) hg128
    · rw [hc]
      exact lt_of_le_of_lt hcom hg128
  · intro hover
    simp only [compute_offer_amount]
    rw [if_pos hover]

/-- Counterexample to C3 as stated: at `offer_pool = 2`,
`ask_pool = 2^128 - 1`, `offer_amount = 2^128 - 2`, fee `3/1000`, the
spread value `(2^128-2)(2^128-1)/2 - (2^128-2)` does not fit 128 bits;
`compute_swap` neither fails nor returns it — it succeeds and returns the
truncated low 128 bits, `2^127 + 3`. -/
theorem compute_swap_silent_truncation_cex :
    compute_swap 2 (2 ^ 128 - 1) (2 ^ 128 - 2) 3 1000 =
      CwResult.ok
        ((2 ^ 128 - 2) - (2 ^ 128 - 2) * 3 / 1000, 2 ^ 127 + 3,
          (2 ^ 128 - 2) * 3 / 1000)
    ∧ (2 ^ 128 - 2) * (2 ^ 128 - 1) / 2 -
        ((2 ^ 128 - 1) - 2 * (2 ^ 128 - 1) / (2 + (2 ^ 128 - 2))) ≠ 2 ^ 127 + 3 := by
  constructor
  · decide
  · decide

theorem grnd_even {r : Nat} (h : r % 2 = 0) :
    get_random_nom_denom r = (10000 + r % 100, 10000) := by
  simp [get_random_nom_denom, h]

theorem grnd_odd {r : Nat} (h : r % 2 = 1) :
    get_random_nom_denom r = (10000 - r % 100, 10000) := by
  simp [get_random_nom_denom, h]

/-! ### Claim C4 -/

/-- C4 (amended): for every draw, `denom = 10000` is fixed and
`nom = 10000 + (draw % 100)` for an even draw, `10000 - (draw % 100)` for
an odd one. Because `draw % 100` has the same parity as the draw itself,
`nom` always has the parity of the draw: even draws yield only the 50 even
values `10000, 10002, ..., 10098` (up-scaling by up to 0.98%) and odd
draws only the 50 odd values `9901, 9903, ..., 9999` (down-scaling by up
to 0.99%) — 50 possible values per side, not 100, and `10099` is never
produced. -/
theorem get_random_nom_denom_distribution (r : Nat) :
    ∃ nom, get_random_nom_denom r = (nom, 10000)
      ∧ nom % 2 = r % 2
      ∧ (r % 2 = 0 → nom = 10000 + r % 100 ∧ 10000 ≤ nom ∧ nom ≤ 10098)
      ∧ (r % 2 = 1 → nom = 10000 - r % 100 ∧ 9901 ≤ nom ∧ nom ≤ 9999) := by
  rcases Nat.mod_two_eq_zero_or_one r with h | h
  · exact ⟨10000 + r % 100, grnd_even h, by omega,
      fun _ => ⟨rfl, by omega, by omega⟩, fun h1 => by simp [h] at h1⟩
  · exact ⟨10000 - r % 100, grnd_odd h, by omega,
      fun h0 => by simp [h] at h0, fun _ => ⟨rfl, by omega, by omega⟩⟩

set_option maxRecDepth 40000 in
/-- Counterexample to C4 as stated: the multiplier nominator takes only
100 distinct values in total over a full period of draws (the map depends
only on `draw % 100`, which the main theorem's formulas show), and the
claimed value `10099` — the top of the asserted range `[9901, 10099]` —
is not among them. -/
theorem nom_value_10099_unreachable_cex :
    ((Finset.range 200).image (fun r => (get_random_nom_denom r).1)).card = 100
    ∧ 10099 ∉ (Finset.range 200).image (fun r => (get_random_nom_denom r).1) := by
  constructor
  · decide
  · decide

/-! ### Claims C5 and C6 -/

/-- C5: the committed amounts of a state-changing swap are a function of
the true reserves and settings only — two runs of the swap path that
differ only in the entropy draw return identical amounts — while the
read-only simulation path applies the draw's obfuscation multiplier
`nom / 10000` to both reserves before pricing, and its report genuinely
depends on the draw (shown at a concrete state for draws `0` and `2`). -/
theorem swap_amounts_draw_independent
    (d1 d2 p0 p1 oa nom denom : Nat) (b : Bool) (er : Option Nat)
    (bp ms : Option SDecimal) :
    (try_swap_amounts d1 p0 p1 b oa nom denom er bp ms =
      try_swap_amounts d2 p0 p1 b oa nom denom er bp ms)
    ∧ (p0 * (get_random_nom_denom d1).1 < 2 ^ 128 →
        p1 * (get_random_nom_denom d1).1 < 2 ^ 128 →
        query_simulation d1 p0 p1 b oa nom denom =
          compute_swap
            (if b then p0 * (get_random_nom_denom d1).1 / 10000
              else p1 * (get_random_nom_denom d1).1 / 10000)
            (if b then p1 * (get_random_nom_denom d1).1 / 10000
              else p0 * (get_random_nom_denom d1).1 / 10000)
            oa nom denom)
    ∧ query_pool 0 10000 10000 10000 ≠ query_pool 2 10000 10000 10000 := by
  refine ⟨rfl, ?_, by decide⟩
  intro h1 h2
  have hd : (get_random_nom_denom d1).2 = 10000 := by
    rcases Nat.mod_two_eq_zero_or_one d1 with h | h
    · rw [grnd_even h]
    · rw [grnd_odd h]
  simp only [query_simulation, hd]
  rw [if_neg (by omega), if_neg (by omega)]

/-- C6 (amended): a withdrawal against a zero total share supply fails
with a returned error (the checked wide division refuses the zero
divisor), and a swap against a zero offer-side reserve fails likewise; a
swap against a zero ask-side reserve, however, does not fail — it
succeeds and returns zero output, zero spread and zero commission. -/
theorem zero_division_behavior (pool_amount burn_amount ap oa op nom denom : Nat) :
    ((compute_withdrawal pool_amount burn_amount 0).isErr = true)
    ∧ (ap < 2 ^ 128 → oa < 2 ^ 128 → (compute_swap 0 ap oa nom denom).isErr = true)
    ∧ (0 < op → op < 2 ^ 128 → oa < 2 ^ 128 → 0 < denom →
        compute_swap op 0 oa nom denom = CwResult.ok (0, 0, 0)) := by
  refine ⟨?_, ?_, ?_⟩
  · cases hm : u256_math.mul (some pool_amount) (some burn_amount) with
    | none => simp [compute_withdrawal, u256_math.div, hm, CwResult.isErr]
    | some v => simp [compute_withdrawal, u256_math.div, hm, CwResult.isErr]
  · intro hap hoa
    have hcp : u256_math.mul (some 0) (some ap) = some 0 := by
      have := u256_mul_some (x := 0) (y := ap) (by norm_num)
      simpa using this
    by_cases h0 : oa = 0
    · subst h0
      have hadd : u256_math.add (some 0) (some 0) = some 0 := by
        have := u256_add_some (x := 0) (y := 0) (by norm_num)
        simpa using this
      have hdz : u256_math.div (some 0) (some 0) = none := u256_div_zero _
      have hsubn : u256_math.sub (some ap) none = none := by simp [u256_math.sub]
      simp only [compute_swap, hcp, hadd, hdz, hsubn, CwResult.isErr]
    · have hadd : u256_math.add (some 0) (some oa) = some oa := by
        have := u256_add_some (x := 0) (y := oa)
          (by calc 0 + oa = oa := by omega
            _ < 2 ^ 128 := hoa
            _ ≤ 2 ^ 256 := by norm_num)
        simpa using this
      have hdiv : u256_math.div (some 0) (some oa) = some 0 := by
        have := u256_div_some (x := 0) (y := oa) h0
        simpa using this
      have hsub : u256_math.sub (some ap) (some 0) = some ap := by
        have := u256_sub_some (x := ap) (y := 0) (Nat.zero_le ap)
        simpa using this
      have hmz : u256_math.div (u256_math.mul (some oa) (some ap)) (some 0) = none :=
        u256_div_zero _
      simp only [compute_swap, hcp, hadd, hdiv, hsub, hmz, CwResult.isErr]
  · intro hop hop128 hoa128 hden
    have hcp : u256_math.mul (some op) (some 0) = some 0 := by
      have := u256_mul_some (x := op) (y := 0) (by norm_num)
      simpa using this
    have hadd : u256_math.add (some op) (some oa) = some (op + oa) :=
      u256_add_some (add_lt_limit hop128 hoa128)
    have hdiv : u256_math.div (some 0) (some (op + oa)) = some 0 := by
      have := u256_div_some (x := 0) (y := op + oa) (by omega)
      simpa using this
    have hsub : u256_math.sub (some 0) (some 0) = some 0 := by
      have := u256_sub_some (x := 0) (y := 0) (Nat.le_refl 0)
      simpa using this
    have hmz : u256_math.mul (some oa) (some 0) = some 0 := by
      have := u256_mul_some (x := oa) (y := 0) (by norm_num)
      simpa using this
    have hdv2 : u256_math.div (some 0) (some op) = some 0 := by
      have := u256_div_some (x := 0) (y := op) (by omega)
      simpa using this
    have hmn : u256_math.mul (some 0) (some nom) = some 0 := by
      have := u256_mul_some (x := 0) (y := nom) (by norm_num)
      simpa using this
    have hdv3 : u256_math.div (some 0) (some denom) = some 0 := by
      have := u256_div_some (x := 0) (y := denom) (by omega)
      simpa using this
    simp only [compute_swap, hcp, hadd, hdiv, hsub, hmz, hdv2, hmn, hdv3]
    norm_num

/-- Counterexample to C6 as stated: a swap against a zero (ask-side)
reserve does not fail — `compute_swap 10 0 5` with fee `3/1000` succeeds
and returns `(0, 0, 0)`. -/
theorem zero_ask_reserve_swap_succeeds_cex :
    compute_swap 10 0 5 3 1000 = CwResult.ok (0, 0, 0) := by
  decide

/-! ### Claim C7 -/

theorem dec_sub_one_ratio {nom denom : Nat} (h : nom ≤ denom) :
    decimal_subtraction SDecimal.one (SDecimal.from_ratio nom denom) =
      CwResult.ok ⟨denom - nom, denom⟩ := by
  simp [decimal_subtraction, SDecimal.one, SDecimal.from_ratio, h]

/-- C7 (amended): with a proper fee (`fee_nom < fee_denom`) and an
in-range product `offer_pool * ask_pool`, `compute_offer_amount` returns
an error whenever the fee-adjusted output `floor(ask_amount / (1 -
fee_rate))` strictly exceeds `ask_pool`; when it exactly equals
`ask_pool` — the boundary of the claimed exhaustion condition — the
computation panics on a division by zero inside `multiply_ratio` instead
of returning an error. -/
theorem compute_offer_amount_exhaustion_behavior (op ap ask nom denom : Nat)
    (hden : 0 < denom) (hnd : nom < denom) (hcp : op * ap < 2 ^ 128) :
    (ap < ask * denom / (denom - nom) →
      (compute_offer_amount op ap ask nom denom).isErr = true)
    ∧ (ask * denom / (denom - nom) = ap →
      compute_offer_amount op ap ask nom denom = CwResult.panic) := by
  have g1 : ¬ (2 ^ 128 ≤ op * ap) := by omega
  have g2 : ¬ (denom = 0) := by omega
  have hds := dec_sub_one_ratio (le_of_lt hnd)
  have hdm : denom - nom ≠ 0 := by omega
  have hmd : uint_mul_dec ask (reverse_decimal ⟨denom - nom, denom⟩) =
      CwResult.ok (ask * denom / (denom - nom)) := by
    simp [uint_mul_dec, reverse_decimal, hdm]
  constructor
  · intro hlt
    have hsub : uint_sub ap (ask * denom / (denom - nom)) =
        CwResult.err "Cannot subtract Uint128" := by
      simp only [uint_sub]
      rw [if_neg (by omega)]
    simp only [compute_offer_amount, if_neg g1, if_neg g2, hds, CwResult.bind,
      hmd, hsub, CwResult.isErr]
  · intro heq
    have hsub : uint_sub ap (ask * denom / (denom - nom)) = CwResult.ok 0 := by
      simp only [uint_sub, heq]
      rw [if_pos (Nat.le_refl ap)]
      simp
    have hmr : multiply_ratio (op * ap) 1 0 = CwResult.panic := by
      simp [multiply_ratio]
    simp only [compute_offer_amount, if_neg g1, if_neg g2, hds, CwResult.bind,
      hmd, hsub, hmr]

/-- Witness for C7 at `(offer_pool, ask_pool, ask_amount) = (2, 5, 6)`,
zero fee: the fee-adjusted output `6` exceeds the pool `5`, and the call
returns an error. -/
theorem compute_offer_amount_exhaustion_behavior_witness :
    (compute_offer_amount 2 5 6 0 1).isErr = true :=
  (compute_offer_amount_exhaustion_behavior 2 5 6 0 1 (by norm_num) (by norm_num)
    (by norm_num)).1 (by norm_num)

/-- Counterexample to C7 as stated: at `ask_amount = ask_pool = 100` with
zero fee, `ask_amount / (1 - fee_rate) = 100 ≥ ask_pool`, so the claim
demands an error — but the computation panics (division by zero) and
returns no error. -/
theorem compute_offer_amount_exact_exhaustion_panics_cex :
    compute_offer_amount 100 100 100 0 1 = CwResult.panic
    ∧ (compute_offer_amount 100 100 100 0 1).isErr = false := by
  exact ⟨by decide, by decide⟩

/-! ### Claim C8 -/

/-- C8: whenever `expected_return` is supplied, `assert_max_spread`
succeeds exactly when `return_amount ≥ expected_return` and otherwise
fails with the shortfall error, for every choice of `belief_price` and
`max_spread` — the `expected_return` mode has highest priority and the
other parameters are ignored. -/
theorem assert_max_spread_expected_return_mode (bp ms : Option SDecimal)
    (er oa ra ca sa : Nat) :
    ((assert_max_spread bp ms (some er) oa ra ca sa = CwResult.ok ()) ↔ er ≤ ra)
    ∧ (ra < er →
        assert_max_spread bp ms (some er) oa ra ca sa =
          CwResult.err "Operation fell short of expected_return") := by
  simp only [assert_max_spread]
  by_cases h : ra < er
  · rw [if_pos h]
    exact ⟨iff_of_false (by simp) (by omega), fun _ => rfl⟩
  · rw [if_neg h]
    exact ⟨iff_of_true rfl (by omega), fun hlt => absurd hlt h⟩

/-! ### Claim C9 -/

/-- C9 (amended): with zero fee, on in-range inputs with
`offer_pool + offer_amount ≤ offer_pool * ask_pool`, the swap's realized
output is `gross = ask_pool - q` with `q = floor(offer_pool * ask_pool /
(offer_pool + offer_amount))`, and feeding `gross` back into
`compute_offer_amount` recovers `offer_amount + floor((offer_pool *
ask_pool mod (offer_pool + offer_amount)) / q)` — an overshoot of
`floor(r / q)` units, which is not bounded by 1 unit per call. -/
theorem round_trip_overshoot (op ap oa : Nat)
    (hop : 0 < op) (hoa : 0 < oa) (hop128 : op < 2 ^ 128) (hap128 : ap < 2 ^ 128)
    (hoa128 : oa < 2 ^ 128) (hcp : op * ap < 2 ^ 128) (hq1 : op + oa ≤ op * ap) :
    CwResult.first3 (compute_swap op ap oa 0 1) = some (ap - op * ap / (op + oa))
    ∧ CwResult.first3
        (compute_offer_amount op ap (ap - op * ap / (op + oa)) 0 1) =
      some (oa + op * ap % (op + oa) / (op * ap / (op + oa))) := by
  have hspos : 0 < op + oa := by omega
  have hqpos : 0 < op * ap / (op + oa) := Nat.div_pos hq1 hspos
  have hqle : op * ap / (op + oa) ≤ ap := quot_le_ask hop
  constructor
  · have heq := compute_swap_eq_ok op ap oa 0 1 hop128 hap128 hoa128 (by norm_num)
      hop (by norm_num) (by simp)
    rw [heq]
    simp [CwResult.first3]
  · have g1 : ¬ (2 ^ 128 ≤ op * ap) := by omega
    have g2 : ¬ ((1 : Nat) = 0) := by norm_num
    have hds : decimal_subtraction SDecimal.one (SDecimal.from_ratio 0 1) =
        CwResult.ok ⟨1, 1⟩ := by
      simpa using dec_sub_one_ratio (Nat.zero_le 1)
    have hmd : uint_mul_dec (ap - op * ap / (op + oa)) (reverse_decimal ⟨1, 1⟩) =
        CwResult.ok (ap - op * ap / (op + oa)) := by
      simp [uint_mul_dec, reverse_decimal]
    have hsub1 : uint_sub ap (ap - op * ap / (op + oa)) =
        CwResult.ok (op * ap / (op + oa)) := by
      simp only [uint_sub]
      rw [if_pos (Nat.sub_le _ _), Nat.sub_sub_self hqle]
    have hmr : multiply_ratio (op * ap) 1 (op * ap / (op + oa)) =
        CwResult.ok (op * ap / (op * ap / (op + oa))) := by
      simp only [multiply_ratio, Nat.mul_one]
      rw [if_neg (by omega), if_neg (by omega)]
    have key : op * ap / (op * ap / (op + oa)) =
        (op + oa) + op * ap % (op + oa) / (op * ap / (op + oa)) := by
      obtain ⟨q, hq⟩ : ∃ q, op * ap / (op + oa) = q := ⟨_, rfl⟩
      obtain ⟨m, hm⟩ : ∃ m, op * ap % (op + oa) = m := ⟨_, rfl⟩
      have hqpos' : 0 < q := hq ▸ hqpos
      have hdm : (op + oa) * q + m = op * ap := by
        rw [← hq, ← hm]
        exact Nat.div_add_mod _ _
      rw [hq, hm, ← hdm, Nat.mul_comm (op + oa) q]
      exact Nat.mul_add_div hqpos' _ _
    have hople : op ≤ op * ap / (op * ap / (op + oa)) := by
      rw [key]
      exact le_trans (Nat.le_add_right op oa) (Nat.le_add_right _ _)
    have hsub2 : uint_sub (op * ap / (op * ap / (op + oa))) op =
        CwResult.ok (oa + op * ap % (op + oa) / (op * ap / (op + oa))) := by
      simp only [uint_sub]
      rw [if_pos hople]
      congr 1
      rw [key, Nat.add_assoc, Nat.add_sub_cancel_left]
    have hmm : uint_mul_dec (oa + op * ap % (op + oa) / (op * ap / (op + oa)))
        (SDecimal.from_ratio ap op) =
        CwResult.ok ((oa + op * ap % (op + oa) / (op * ap / (op + oa))) * ap / op) := by
      simp only [uint_mul_dec, SDecimal.from_ratio]
      rw [if_neg (by omega)]
    have hcm : uint_mul_dec (ap - op * ap / (op + oa)) (SDecimal.from_ratio 0 1) =
        CwResult.ok 0 := by
      simp [uint_mul_dec, SDecimal.from_ratio]
    simp only [compute_offer_amount, if_neg g1, if_neg g2, hds, CwResult.bind,
      hmd, hsub1, hmr, hsub2, hmm, hcm, CwResult.first3]

/-- Witness for C9 at reserves `(3, 5)`, offer `7`, zero fee: the swap
returns `5 - 15/10 = 4`, and the reverse quote at `4` recovers
`7 + (15 mod 10) / (15 / 10) = 12`. -/
theorem round_trip_overshoot_witness :
    CwResult.first3 (compute_swap 3 5 7 0 1) = some (5 - 3 * 5 / (3 + 7))
    ∧ CwResult.first3 (compute_offer_amount 3 5 (5 - 3 * 5 / (3 + 7)) 0 1) =
      some (7 + 3 * 5 % (3 + 7) / (3 * 5 / (3 + 7))) :=
  round_trip_overshoot 3 5 7 (by norm_num) (by norm_num) (by norm_num) (by norm_num)
    (by norm_num) (by norm_num) (by norm_num)

/-- Counterexample to C9 as stated: at reserves `(3, 5)`, offer `7`, zero
fee, the swap succeeds with net output `4`, and the reverse quote at
`ask_amount = 4` yields a required offer of `12` — off from the original
`7` by `5`, far beyond one unit of truncation error per call. -/
theorem round_trip_error_exceeds_bound_cex :
    compute_swap 3 5 7 0 1 = CwResult.ok (4, 7, 0)
    ∧ compute_offer_amount 3 5 4 0 1 = CwResult.ok (12, 16, 0)
    ∧ ¬ (12 - 7 ≤ 2) := by
  exact ⟨by decide, by decide, by decide⟩

/-! ### Claim C10 -/

theorem floor_scale_cross_bound (a b n d : Nat) (ha : 0 < a) (hd : 0 < d) :
    (a * n / d) * b < (b * n / d + 1) * a := by
  have h1 : (a * n / d) * d ≤ a * n := Nat.div_mul_le_self _ _
  have h2 : b * n < (b * n / d + 1) * d := by
    have e1 := Nat.div_add_mod (b * n) d
    have e2 : b * n % d < d := Nat.mod_lt _ hd
    calc b * n = d * (b * n / d) + b * n % d := e1.symm
      _ < d * (b * n / d) + d := Nat.add_lt_add_left e2 _
      _ = (b * n / d + 1) * d := by ring
  have h5 : (a * n / d) * b * d ≤ a * b * n := by
    calc (a * n / d) * b * d = (a * n / d) * d * b := by ring
      _ ≤ a * n * b := Nat.mul_le_mul_right b h1
      _ = a * b * n := by ring
  have h6 : a * b * n < (b * n / d + 1) * a * d := by
    calc a * b * n = (b * n) * a := by ring
      _ < ((b * n / d + 1) * d) * a := (Nat.mul_lt_mul_right ha).mpr h2
      _ = (b * n / d + 1) * a * d := by ring
  exact lt_of_mul_lt_mul_right (lt_of_le_of_lt h5 h6) (Nat.zero_le d)

/-- C10: within one read-only pool query, a single `(nom, denom)` pair is
derived from one draw and that same multiplier scales both reserves and
the total share, each as `floor(value * nom / 10000)`; consequently the
reported reserves preserve the true ratio `a0 / a1` up to the truncation
of the two independent floors (the reported cross-products differ by less
than one reserve unit on each side). -/
theorem query_pool_single_multiplier_ratio (r a0 a1 ts : Nat)
    (h0 : a0 * (get_random_nom_denom r).1 < 2 ^ 128)
    (h1 : a1 * (get_random_nom_denom r).1 < 2 ^ 128)
    (h2 : ts * (get_random_nom_denom r).1 < 2 ^ 128)
    (ha0 : 0 < a0) (ha1 : 0 < a1) :
    query_pool r a0 a1 ts =
      CwResult.ok (a0 * (get_random_nom_denom r).1 / 10000,
        a1 * (get_random_nom_denom r).1 / 10000,
        ts * (get_random_nom_denom r).1 / 10000)
    ∧ (a0 * (get_random_nom_denom r).1 / 10000) * a1 <
        (a1 * (get_random_nom_denom r).1 / 10000 + 1) * a0
    ∧ (a1 * (get_random_nom_denom r).1 / 10000) * a0 <
        (a0 * (get_random_nom_denom r).1 / 10000 + 1) * a1 := by
  have hd : (get_random_nom_denom r).2 = 10000 := by
    rcases Nat.mod_two_eq_zero_or_one r with h | h
    · rw [grnd_even h]
    · rw [grnd_odd h]
  refine ⟨?_, floor_scale_cross_bound a0 a1 _ 10000 ha0 (by norm_num),
    floor_scale_cross_bound a1 a0 _ 10000 ha1 (by norm_num)⟩
  simp only [query_pool, hd]
  rw [if_neg (by omega), if_neg (by omega), if_neg (by omega)]

/-- Witness for C10 at draw `2` (multiplier `10002/10000`), reserves
`(30, 20)`, total share `10`. -/
theorem query_pool_single_multiplier_ratio_witness :
    query_pool 2 30 20 10 =
      CwResult.ok (30 * (get_random_nom_denom 2).1 / 10000,
        20 * (get_random_nom_denom 2).1 / 10000,
        10 * (get_random_nom_denom 2).1 / 10000)
    ∧ (30 * (get_random_nom_denom 2).1 / 10000) * 20 <
        (20 * (get_random_nom_denom 2).1 / 10000 + 1) * 30
    ∧ (20 * (get_random_nom_denom 2).1 / 10000) * 30 <
        (30 * (get_random_nom_denom 2).1 / 10000 + 1) * 20 :=
  query_pool_single_multiplier_ratio 2 30 20 10 (by decide) (by decide) (by decide)
    (by norm_num) (by norm_num)
